import Mathlib

/-!
Verification of the iza-container runtime (src/main.cpp).

A shallow embedding of the parts of `src/main.cpp` referenced by the
specification: argument parsing, the image store (pull / download /
extract / resolve), the overlay rootfs assembler and its teardown, the
cgroup limit parsers and writers, the clone/chroot path computation, and
the exit-status translation.

The on-disk state is modelled as a list of existing paths; external
effects (libcurl transfers, libarchive extraction, mkdir/mount/copy
success) are modelled as explicit outcome parameters, so that every
control-flow branch of the source is represented.
-/

/-! ## Filesystem model

A filesystem is the list of paths that currently exist.  The operations
mirror the `std::filesystem` calls used by the source. -/

/-- Model of `std::filesystem::exists`. -/
def pathExists : List String → String → Bool
  | [], _ => false
  | q :: fs, p => decide (q = p) || pathExists fs p

/-- A path `q` lies inside the tree rooted at `d` (it is `d` itself or a
descendant `d/...`).  Used to model recursive removal. -/
def underDir (d q : String) : Bool :=
  decide (q = d) || (d ++ "/").data.isPrefixOf q.data

/-- Model of `std::filesystem::remove_all`: removes `p` and everything below it. -/
def removeAllPaths (fs : List String) (p : String) : List String :=
  fs.filter (fun q => !(underDir p q))

/-- Model of `std::filesystem::remove`: removes the single path `p`. -/
def removeFile (fs : List String) (p : String) : List String :=
  fs.filter (fun q => !(decide (q = p)))

/-- Model of `std::filesystem::create_directories` / creating a file: the path
exists afterwards. -/
def createPath (fs : List String) (p : String) : List String :=
  if pathExists fs p then fs else p :: fs

/-! ## Child/parent rootfs path computation (claim C1)

`main` (src/main.cpp:879) creates a symlink at
`/tmp/iza-container-<getpid()>` pointing at the assembled rootfs;
`container_child` (src/main.cpp:760) recomputes the path as
`/tmp/iza-container-<getppid()>`.  The child is created by `clone` with
the flags at src/main.cpp:956. -/

def CLONE_NEWNS : Nat := 0x00020000

def CLONE_NEWUTS : Nat := 0x04000000

def CLONE_NEWIPC : Nat := 0x08000000

def CLONE_NEWPID : Nat := 0x20000000

def CLONE_NEWNET : Nat := 0x40000000

def SIGCHLD : Nat := 17

/-- The clone flags used at src/main.cpp:956. -/
def clone_flags : Nat :=
  CLONE_NEWPID ||| CLONE_NEWNS ||| CLONE_NEWUTS ||| CLONE_NEWIPC ||| CLONE_NEWNET ||| SIGCHLD

/-- The symlink path the parent creates (src/main.cpp:879), where `pid`
is the parent's `getpid()`. -/
def child_rootfs_link (pid : Nat) : String :=
  "/tmp/iza-container-" ++ toString pid

/-- The rootfs path the child computes (src/main.cpp:757-764), where
`ppid` is the value the child observes from `getppid()`. -/
def child_rootfs_path (image_name : String) (ppid : Nat) : String :=
  if image_name ≠ "" then "/tmp/iza-container-" ++ toString ppid
  else "/tmp/iza-rootfs"

/-- Model of `getppid()` as observed by a child created with the given clone
flags.  Per pid_namespaces(7) and getppid(2): a process whose parent
lives in an ancestor PID namespace observes `getppid() = 0`; this is the
case exactly when the child was created with `CLONE_NEWPID`. -/
def getppid_after_clone (parent_pid flags : Nat) : Nat :=
  if flags &&& CLONE_NEWPID ≠ 0 then 0 else parent_pid

/-! ## Exit-status translation (claim C7)

`main` (src/main.cpp:1016-1027) translates the `waitpid` status with the
glibc macros.  `status & 0x7f` is written `status % 128` and
`(status & 0xff00) >> 8` is written `(status / 256) % 256`. -/

/-- glibc `WTERMSIG(status) = status & 0x7f`. -/
def WTERMSIG (status : Nat) : Nat := status % 128

/-- glibc `WEXITSTATUS(status) = (status & 0xff00) >> 8`. -/
def WEXITSTATUS (status : Nat) : Nat := (status / 256) % 256

/-- glibc `WIFEXITED(status) = (WTERMSIG(status) == 0)`. -/
def WIFEXITED (status : Nat) : Bool := WTERMSIG status == 0

/-- The value of `(signed char) n` in C, for a byte obtained from `n`. -/
def signedCharOf (n : Nat) : Int :=
  if n % 256 < 128 then (n % 256 : Int) else (n % 256 : Int) - 256

/-- glibc `WIFSIGNALED(status) = ((signed char)((status & 0x7f) + 1) >> 1) > 0`. -/
def WIFSIGNALED (status : Nat) : Bool :=
  decide (0 < signedCharOf (WTERMSIG status + 1) / 2)

/-- The exit-code computation of `main` (src/main.cpp:1016-1027): surface
the child's exit code if it exited, `128 + signal` if it was killed by a
signal, else 0. -/
def translate_status (status : Nat) : Int :=
  if WIFEXITED status then (WEXITSTATUS status : Int)
  else if WIFSIGNALED status then 128 + (WTERMSIG status : Int)
  else 0

/-! ## Image store (claims C2, C3, C6)

`ImageManager` (src/main.cpp:158-429).  The directories are the source's
member constants; the curl transfer and the libarchive extraction are
modelled as explicit outcomes covering every branch of the source. -/

def images_dir : String := "/var/lib/iza/images"

def cache_dir : String := "/var/lib/iza/cache"

/-- Outcome of the libcurl transfer in `download_file`
(src/main.cpp:284-322).  The source checks only the `CURLcode` returned
by `curl_easy_perform`; it never inspects the HTTP response code
(`CURLOPT_FAILONERROR` is not set), so a completed transfer carries its
HTTP status here but the code cannot branch on it. -/
inductive CurlOutcome where
  | initFail
  | openFail
  | transportError
  | completed (httpStatus : Nat)
deriving Repr, DecidableEq

/-- Model of `ImageManager::download_file` (src/main.cpp:284-322).  `fopen(…,"wb")`
creates (or truncates) the output file; on `res != CURLE_OK` the partial
file is removed and -1 returned; otherwise 0 is returned with the file
kept, regardless of the HTTP status. -/
def download_file (fs : List String) (output_path : String) (o : CurlOutcome) :
    List String × Int :=
  match o with
  | .initFail => (fs, -1)
  | .openFail => (fs, -1)
  | .transportError => (removeFile (createPath fs output_path) output_path, -1)
  | .completed _ => (createPath fs output_path, 0)

/-- Outcome of the libarchive loop in `extract_image`
(src/main.cpp:354-399): opening the archive can fail; a fatal
header/data error can abort after some entries were written; or all
entries extract. -/
inductive ExtractOutcome where
  | openFail
  | entryFail (written : List String)
  | ok (entries : List String)
deriving Repr, DecidableEq

/-- Model of `ImageManager::extract_image` (src/main.cpp:324-408): removes any
existing `extract_dir`, creates `extract_dir` and `extract_dir/rootfs`,
then streams the archive.  Every fatal-error return (src/main.cpp:358,
370, 387, 396) frees the libarchive handles and returns -1 without
removing anything. -/
def extract_image (fs : List String) (extract_dir : String) (o : ExtractOutcome) :
    List String × Int :=
  let fs1 := removeAllPaths fs extract_dir
  let fs2 := createPath fs1 extract_dir
  let fs3 := createPath fs2 (extract_dir ++ "/rootfs")
  match o with
  | .openFail => (fs3, -1)
  | .entryFail written => (written.foldl createPath fs3, -1)
  | .ok entries => (entries.foldl createPath fs3, 0)

/-- Model of `ImageManager::get_image_rootfs` (src/main.cpp:272-281). -/
def get_image_rootfs (fs : List String) (image_name : String) : String :=
  let rootfs_dir := images_dir ++ "/" ++ image_name ++ "/rootfs"
  if pathExists fs rootfs_dir then rootfs_dir else ""

/-- Split a character list at the first occurrence of `sep`, returning
the parts before and after it (C++ `find` + `substr`). -/
def splitAtChar (sep : Char) : List Char → Option (List Char × List Char)
  | [] => none
  | c :: t =>
    if c = sep then some ([], t)
    else
      match splitAtChar sep t with
      | none => none
      | some (a, b) => some (c :: a, b)

/-- The `name:tag` split of `pull_image` (src/main.cpp:174-182): split at
the first colon (the tag keeps any further colons); absent tag defaults
to `latest`. -/
def parse_name_tag (image_name : String) : String × String :=
  match splitAtChar ':' image_name.data with
  | none => (image_name, "latest")
  | some (n, t) => (String.mk n, String.mk t)

/-- The static URL allow-list of `pull_image` (src/main.cpp:186-196). -/
def download_url_for (name : String) : Option String :=
  if name = "ubuntu" then
    some "https://github.com/ianmackinnon/ubuntu-minimal-rootfs/releases/download/20.04/ubuntu-minimal-rootfs-20.04.tar.gz"
  else if name = "alpine" then
    some "https://dl-cdn.alpinelinux.org/alpine/v3.18/releases/x86_64/alpine-minirootfs-3.18.4-x86_64.tar.gz"
  else none

/-- Model of `ImageManager::pull_image` (src/main.cpp:170-214).  Note that the
`(name, tag)` split is used only for URL selection: both the cache path
and the extraction directory are built from the raw `image_name`. -/
def pull_image (fs : List String) (image_name : String)
    (dl : CurlOutcome) (ex : ExtractOutcome) : List String × Int :=
  let (name, _tag) := parse_name_tag image_name
  match download_url_for name with
  | none => (fs, -1)
  | some _url =>
    let image_path := cache_dir ++ "/" ++ image_name ++ ".tar.gz"
    let (fs1, r1) := download_file fs image_path dl
    if r1 ≠ 0 then (fs1, -1)
    else
      let extract_dir := images_dir ++ "/" ++ image_name
      let (fs2, r2) := extract_image fs1 extract_dir ex
      if r2 ≠ 0 then (fs2, -1) else (fs2, 0)

/-! ## Rootfs assembler (claim C9)

`OverlayFS` (src/main.cpp:431-544).  The system state is the filesystem
plus the set of active mount points.  Directory-creation, mount and
recursive-copy success are outcome parameters; a failing copy may leave
behind the partially copied paths. -/

structure SysState where
  fs : List String
  mounts : List String
deriving Repr, DecidableEq

def overlay_dir : String := "/var/lib/iza/overlay"

/-- Model of `OverlayFS::cleanup_overlay` (src/main.cpp:529-543): if the merged
directory exists, `umount` it (failure is ignored in the source; the
model unmounts), then `remove_all` the whole per-container directory.
The source always returns 0. -/
def cleanup_overlay (st : SysState) (container_id : String) : SysState :=
  let container_overlay := overlay_dir ++ "/" ++ container_id
  let merged_dir := container_overlay ++ "/merged"
  let st1 :=
    if pathExists st.fs merged_dir then
      { st with mounts := st.mounts.filter (fun m => !(decide (m = merged_dir))) }
    else st
  { st1 with fs := removeAllPaths st1.fs container_overlay }

/-- Outcome of the recursive `std::filesystem::copy` in
`setup_bind_mount_fallback` (src/main.cpp:455-462): success or a thrown
`filesystem_error`; either way `copied` are the paths the copy had
written (all inside the destination). -/
inductive CopyOutcome where
  | ok (copied : List String)
  | fail (copied : List String)
deriving Repr, DecidableEq

def CopyOutcome.copied : CopyOutcome → List String
  | .ok l => l
  | .fail l => l

/-- Model of `OverlayFS::setup_bind_mount_fallback` (src/main.cpp:441-466):
removes any existing per-container directory, recreates it, then deep
copies the image rootfs to `<dir>/rootfs`.  Returns the copy
destination as the container rootfs, with 0 on success and -1 when the
copy threw. -/
def setup_bind_mount_fallback (st : SysState) (container_id : String)
    (c : CopyOutcome) : SysState × String × Int :=
  let container_overlay := overlay_dir ++ "/" ++ container_id
  let container_rootfs := container_overlay ++ "/rootfs"
  let fs1 := removeAllPaths st.fs container_overlay
  let fs2 := createPath fs1 container_overlay
  match c with
  | .ok copied =>
    ({ st with fs := copied.foldl createPath (createPath fs2 container_rootfs) },
     container_rootfs, 0)
  | .fail copied =>
    ({ st with fs := copied.foldl createPath fs2 }, container_rootfs, -1)

/-- Model of `OverlayFS::setup_overlay` (src/main.cpp:493-527).  `overlaySupported`
models `check_overlay_support` (reading `/proc/filesystems`), `mkdirsOk`
the `create_directories` calls, `mountOk` the `mount(2)` syscall.  Any
failure falls back to the deep copy, as in the source. -/
def setup_overlay (st : SysState) (image_rootfs container_id : String)
    (overlaySupported mkdirsOk mountOk : Bool) (c : CopyOutcome) :
    SysState × String × Int :=
  if overlaySupported then
    let container_overlay := overlay_dir ++ "/" ++ container_id
    let upper_dir := container_overlay ++ "/upper"
    let work_dir := container_overlay ++ "/work"
    let merged_dir := container_overlay ++ "/merged"
    let st1 := cleanup_overlay st container_id
    if mkdirsOk then
      let fs2 := createPath (createPath (createPath st1.fs upper_dir) work_dir) merged_dir
      if pathExists fs2 image_rootfs && pathExists fs2 upper_dir
          && pathExists fs2 work_dir && pathExists fs2 merged_dir then
        if mountOk then
          ({ fs := fs2, mounts := merged_dir :: st1.mounts }, merged_dir, 0)
        else setup_bind_mount_fallback { st1 with fs := fs2 } container_id c
      else setup_bind_mount_fallback { st1 with fs := fs2 } container_id c
    else setup_bind_mount_fallback st1 container_id c
  else setup_bind_mount_fallback st container_id c

/-- Modifications that only remove or create paths inside the tree
rooted at `d`. -/
inductive ModUnder (d : String) : List String → List String → Prop
  | refl (fs) : ModUnder d fs fs
  | remove {fs fs'} : ModUnder d fs fs' → ModUnder d fs (removeAllPaths fs' d)
  | create {fs fs'} (p) : underDir d p = true → ModUnder d fs fs' →
      ModUnder d fs (createPath fs' p)

/-! ## Cgroup limits (claims C4, C5)

`CgroupManager` (src/main.cpp:546-686).  Strings are processed over
their character lists; `std::stoll` / `std::stod` are modelled exactly
(the latter over ℚ; the source computes in `double`). -/

/-- The value of a digit string (most significant first). -/
def digitsToNat (ds : List Char) : Nat :=
  ds.foldl (fun a c => a * 10 + (c.toNat - 48)) 0

/-- Model of `std::stoll`: skip leading spaces, optional sign, then the longest
digit prefix; no digits throws `invalid_argument` and a value outside
the `long long` range throws `out_of_range` — both modelled as `none`
(the caller catches them). -/
def stollList (cs : List Char) : Option Int :=
  let cs1 := cs.dropWhile (fun c => c = ' ')
  let neg : Bool := decide (cs1.headD ' ' = '-')
  let cs2 := if cs1.headD ' ' = '-' ∨ cs1.headD ' ' = '+' then cs1.tail else cs1
  let ds := cs2.takeWhile Char.isDigit
  if ds = [] then none
  else
    let v : Int := if neg then -(digitsToNat ds : Int) else (digitsToNat ds : Int)
    if v < -9223372036854775808 ∨ 9223372036854775807 < v then none else some v

/-- Model of `CgroupManager::parse_memory_limit` (src/main.cpp:661-685): if the
last character is not a digit it is the (lower-cased) unit and is
stripped; the rest goes through `std::stoll`; `b`/`k`/`m`/`g` scale by
1024⁰..1024³; anything else, or a parse failure, yields -1. -/
def parse_memory_limit (limit : String) : Int :=
  match limit.data.getLast? with
  | none => -1
  | some lastc =>
    let unit := if lastc.isDigit then 'b' else lastc.toLower
    let numChars := if lastc.isDigit then limit.data else limit.data.dropLast
    match stollList numChars with
    | none => -1
    | some num =>
      if unit = 'b' then num
      else if unit = 'k' then num * 1024
      else if unit = 'm' then num * 1024 * 1024
      else if unit = 'g' then num * 1024 * 1024 * 1024
      else -1

/-- Model of `CgroupManager::set_memory_limit` (src/main.cpp:591-609): fails
unless the cgroup was created; a parsed value ≤ 0 (including the -1
parse failure) is rejected; otherwise the byte count is written to
`memory.max`.  Returns (status, value written). -/
def set_memory_limit (created fileOk : Bool) (limit : String) : Int × Option Int :=
  if created = false then (-1, none)
  else
    let bytes := parse_memory_limit limit
    if bytes ≤ 0 then (-1, none)
    else if fileOk = false then (-1, none)
    else (0, some bytes)

/-- Model of `std::stod` for plain decimal literals `[+-]?digits[.digits]`,
modelled exactly over ℚ (the source computes in binary `double`; the
concrete values used in the theorems below truncate identically in
both arithmetics).  Exponent, hex and infinity forms are not
modelled. -/
def stodList (cs : List Char) : Option ℚ :=
  let cs1 := cs.dropWhile (fun c => c = ' ')
  let neg : Bool := decide (cs1.headD ' ' = '-')
  let cs2 := if cs1.headD ' ' = '-' ∨ cs1.headD ' ' = '+' then cs1.tail else cs1
  let ip := cs2.takeWhile Char.isDigit
  let rest := cs2.dropWhile Char.isDigit
  let fp := if rest.headD ' ' = '.' then rest.tail.takeWhile Char.isDigit else []
  if ip = [] ∧ fp = [] then none
  else
    let mag : ℚ := (digitsToNat ip : ℚ) + (digitsToNat fp : ℚ) / (10 : ℚ) ^ fp.length
    some (if neg then -mag else mag)

def stod (s : String) : Option ℚ := stodList s.data

/-- The C cast `(int)q`: truncation toward zero. -/
def ratTrunc (q : ℚ) : Int :=
  if 0 ≤ q then q.floor else q.ceil

/-- Rounding to the nearest integer (half away from zero for positive
arguments): the spec's `quota_us = round(cores × 100000)`. -/
def specRound (q : ℚ) : Int := (q + 1/2).floor

/-- Model of `CgroupManager::set_cpu_limit` (src/main.cpp:611-632): fails unless
the cgroup was created; `std::stod` on the limit (an unparseable string
throws out of the function, modelled as `none`); a value ≤ 0 is
rejected; otherwise `quota = (int)(cores * 100000)` and
`period = 100000` are written to `cpu.max`.  Returns
(status, pair written). -/
def set_cpu_limit (created fileOk : Bool) (limit : String) :
    Option (Int × Option (Int × Int)) :=
  if created = false then some (-1, none)
  else
    match stod limit with
    | none => none
    | some cpu_cores =>
      if cpu_cores ≤ 0 then some (-1, none)
      else
        let period : Int := 100000
        let quota : Int := ratTrunc (cpu_cores * (100000 : ℚ))
        if fileOk = false then some (-1, none)
        else some (0, some (quota, period))

/-- The memory-limit grammar of the spec, `^[0-9]+[bkmgBKMG]?$`, read
off the same last-character split the code performs. -/
def memGrammarB (s : String) : Bool :=
  match s.data.getLast? with
  | none => false
  | some lastc =>
    if lastc.isDigit then s.data.all Char.isDigit
    else
      !(s.data.dropLast.isEmpty) && s.data.dropLast.all Char.isDigit
        && (lastc.toLower = 'b' || lastc.toLower = 'k'
            || lastc.toLower = 'm' || lastc.toLower = 'g')

/-- The digit part of a grammar string. -/
def memDigits (s : String) : List Char :=
  match s.data.getLast? with
  | none => []
  | some lastc => if lastc.isDigit then s.data else s.data.dropLast

/-- The scale factor named by the (optional) unit suffix. -/
def memScale (s : String) : Int :=
  match s.data.getLast? with
  | none => 1
  | some lastc =>
    if lastc.isDigit then 1
    else if lastc.toLower = 'b' then 1
    else if lastc.toLower = 'k' then 1024
    else if lastc.toLower = 'm' then 1024 * 1024
    else 1024 * 1024 * 1024

/-! ## Run-command argument parsing (claims C8, C10)

`Arguments::parse_run_command` (src/main.cpp:68-118) and
`Arguments::is_available_image` (src/main.cpp:120-125).  `args` is
`argv[2..]`; the string operations (`find`, `substr`, `starts_with`)
are modelled over character lists so that they compute. -/

def charsContains : List Char → Char → Bool
  | [], _ => false
  | a :: t, c => decide (a = c) || charsContains t c

def strStartsWith (s pre : String) : Bool :=
  pre.data.isPrefixOf s.data

def strDrop (s : String) (n : Nat) : String :=
  String.mk (s.data.drop n)

structure RunArgs where
  memory_limit : String := ""
  cpu_limit : String := ""
  image_name : String := ""
  command : List String := []
  valid : Bool := false
deriving Repr, DecidableEq

def is_available_image (fs : List String) (name : String) : Bool :=
  pathExists fs (images_dir ++ "/" ++ name ++ "/rootfs")

def parse_positional (fs : List String) (arg : String) (rest : List String)
    (acc : RunArgs) : RunArgs :=
  if charsContains arg.data ':' || is_available_image fs arg then
    { acc with image_name := arg, command := acc.command ++ rest }
  else
    { acc with command := acc.command ++ arg :: rest }

def parse_run_loop (fs : List String) : List String → RunArgs → RunArgs
  | [], acc => acc
  | arg :: rest, acc =>
    if arg = "--memory" then
      match rest with
      | v :: rest2 => parse_run_loop fs rest2 { acc with memory_limit := v }
      | [] => parse_positional fs arg [] acc
    else if arg = "--cpus" then
      match rest with
      | v :: rest2 => parse_run_loop fs rest2 { acc with cpu_limit := v }
      | [] => parse_positional fs arg [] acc
    else if strStartsWith arg "--memory=" then
      parse_run_loop fs rest { acc with memory_limit := strDrop arg 9 }
    else if strStartsWith arg "--cpus=" then
      parse_run_loop fs rest { acc with cpu_limit := strDrop arg 7 }
    else
      parse_positional fs arg rest acc

def parse_run_command (fs : List String) (args : List String) : RunArgs :=
  if args.isEmpty then { valid := false }
  else
    let acc := parse_run_loop fs args {}
    if acc.command.isEmpty ∧ acc.image_name ≠ "" then
      { acc with command := ["/bin/bash"], valid := true }
    else if acc.command.isEmpty then
      { acc with valid := false }
    else
      { acc with valid := true }

def NotFlagTok (t : String) : Prop :=
  t ≠ "--memory" ∧ t ≠ "--cpus"
  ∧ strStartsWith t "--memory=" = false ∧ strStartsWith t "--cpus=" = false

inductive FlagsOnly : List String → Prop
  | nil : FlagsOnly []
  | memPair (v : String) {l : List String} : FlagsOnly l → FlagsOnly ("--memory" :: v :: l)
  | cpuPair (v : String) {l : List String} : FlagsOnly l → FlagsOnly ("--cpus" :: v :: l)
  | memEq (a : String) {l : List String} : a ≠ "--memory" → a ≠ "--cpus" →
      strStartsWith a "--memory=" = true → FlagsOnly l → FlagsOnly (a :: l)
  | cpuEq (a : String) {l : List String} : a ≠ "--memory" → a ≠ "--cpus" →
      strStartsWith a "--memory=" = false → strStartsWith a "--cpus=" = true →
      FlagsOnly l → FlagsOnly (a :: l)

def flagLimits : List String → String × String → String × String
  | [], p => p
  | arg :: rest, p =>
    if arg = "--memory" then
      match rest with
      | v :: rest2 => flagLimits rest2 (v, p.2)
      | [] => p
    else if arg = "--cpus" then
      match rest with
      | v :: rest2 => flagLimits rest2 (p.1, v)
      | [] => p
    else if strStartsWith arg "--memory=" then flagLimits rest (strDrop arg 9, p.2)
    else if strStartsWith arg "--cpus=" then flagLimits rest (p.1, strDrop arg 7)
    else p

lemma pathExists_iff_mem (fs : List String) (p : String) :
    pathExists fs p = true ↔ p ∈ fs := by
  induction fs with
  | nil => simp [pathExists]
  | cons q fs ih =>
    simp [pathExists, ih]
    exact or_congr (by exact ⟨fun h => h.symm, fun h => h.symm⟩) Iff.rfl

lemma pathExists_createPath (fs : List String) (p : String) :
    pathExists (createPath fs p) p = true := by
  unfold createPath
  cases h : pathExists fs p with
  | true => simpa using h
  | false => simp [pathExists]

lemma pathExists_removeFile (fs : List String) (p : String) :
    pathExists (removeFile fs p) p = false := by
  rw [Bool.eq_false_iff]
  intro h
  have := (pathExists_iff_mem _ _).mp h
  simp [removeFile, List.mem_filter] at this

lemma pathExists_removeAllPaths (fs : List String) (d q : String)
    (h : underDir d q = true) :
    pathExists (removeAllPaths fs d) q = false := by
  rw [Bool.eq_false_iff]
  intro hq
  have := (pathExists_iff_mem _ _).mp hq
  simp [removeAllPaths, List.mem_filter] at this
  exact absurd h (by simp [this.2])

/-- C1: For an image-based run, the parent's symlink is
`/tmp/iza-container-<parent pid>` but the child, created with
`CLONE_NEWPID`, observes `getppid() = 0` and chroots
`/tmp/iza-container-0`: the two paths do not denote the same rootfs.
Shown at the concrete parent pid 1234 with image `ubuntu:latest`. -/
theorem C1_chroot_path_mismatch :
    child_rootfs_path "ubuntu:latest" (getppid_after_clone 1234 clone_flags)
      = "/tmp/iza-container-0"
    ∧ child_rootfs_link 1234 = "/tmp/iza-container-1234"
    ∧ child_rootfs_path "ubuntu:latest" (getppid_after_clone 1234 clone_flags)
      ≠ child_rootfs_link 1234 := by
  refine ⟨rfl, rfl, ?_⟩
  decide

/-- C7: after reaping, a normally exited child's exit code is surfaced
unchanged and a signal-killed child (with or without the core-dump bit
0x80) surfaces `128 + N`. -/
theorem C7_exit_status_translation (code sig : Nat)
    (hc : code ≤ 255) (hs1 : 1 ≤ sig) (hs2 : sig ≤ 126) :
    translate_status (code * 256) = code
    ∧ translate_status sig = 128 + sig
    ∧ translate_status (sig + 128) = 128 + sig := by
  have hterm0 : WTERMSIG (code * 256) = 0 := by
    simp [WTERMSIG]; omega
  have hterm1 : WTERMSIG sig = sig := by
    simp [WTERMSIG]; omega
  have hterm2 : WTERMSIG (sig + 128) = sig := by
    simp [WTERMSIG]; omega
  refine ⟨?_, ?_, ?_⟩
  · simp [translate_status, WIFEXITED, hterm0, WEXITSTATUS]
    omega
  · have hsig : WIFSIGNALED sig = true := by
      simp [WIFSIGNALED, hterm1, signedCharOf]
      omega
    simp [translate_status, WIFEXITED, hterm1, hsig]
    omega
  · have hsig : WIFSIGNALED (sig + 128) = true := by
      simp [WIFSIGNALED, hterm2, signedCharOf]
      omega
    simp [translate_status, WIFEXITED, hterm2, hsig]
    omega

/-- Witness for C7 at exit code 7 and signal 9. -/
theorem C7_exit_status_translation_witness :
    translate_status (7 * 256) = 7
    ∧ translate_status 9 = 128 + 9
    ∧ translate_status (9 + 128) = 128 + 9 :=
  C7_exit_status_translation 7 9 (by decide) (by decide) (by decide)

/-- C2: a pull whose extraction fails fatally (here: the archive cannot
be opened, e.g. a corrupt download) returns failure, yet the freshly
created `<images>/<ref>/rootfs` directory is left behind and the
subsequent resolve returns it as present — the code omits the removal
the spec requires. -/
theorem C2_partial_extract_visible :
    (pull_image [] "ubuntu:latest" (.completed 200) .openFail).2 = -1
    ∧ get_image_rootfs (pull_image [] "ubuntu:latest" (.completed 200) .openFail).1
        "ubuntu:latest" = "/var/lib/iza/images/ubuntu:latest/rootfs"
    ∧ get_image_rootfs (pull_image [] "ubuntu:latest" (.completed 200) .openFail).1
        "ubuntu:latest" ≠ "" := by
  refine ⟨by decide, by decide, by decide⟩

/-- C3 counterexample: a completed HTTPS GET with status 404 (non-2xx) is
reported as success by `download_file` and the cache file is kept — the
code never inspects the HTTP status. -/
theorem C3_non2xx_kept :
    (download_file [] "/var/lib/iza/cache/ubuntu:latest.tar.gz" (.completed 404)).2 = 0
    ∧ pathExists
        (download_file [] "/var/lib/iza/cache/ubuntu:latest.tar.gz" (.completed 404)).1
        "/var/lib/iza/cache/ubuntu:latest.tar.gz" = true := by
  refine ⟨by decide, by decide⟩

/-- C3 (amended): `download_file` removes the partial file and fails
exactly when `curl_easy_perform` reports an error (transport errors,
including premature connection close); a completed transfer returns
success with the file kept whatever its HTTP status. -/
theorem C3_transport_error_cleanup (fs : List String) (p : String) (s : Nat) :
    (download_file fs p .transportError).2 = -1
    ∧ pathExists (download_file fs p .transportError).1 p = false
    ∧ (download_file fs p (.completed s)).2 = 0
    ∧ pathExists (download_file fs p (.completed s)).1 p = true := by
  refine ⟨rfl, ?_, rfl, ?_⟩
  · exact pathExists_removeFile _ _
  · exact pathExists_createPath _ _

lemma pathExists_foldl_createPath (l : List String) (fs : List String) (p : String)
    (h : pathExists fs p = true) : pathExists (l.foldl createPath fs) p = true := by
  induction l generalizing fs with
  | nil => simpa using h
  | cons q t ih =>
    apply ih
    unfold createPath
    cases hq : pathExists fs q with
    | true => simpa using h
    | false => simp [pathExists, h]

/-- C6 counterexample: `pull_image "ubuntu"` succeeds and stores the
image under `/var/lib/iza/images/ubuntu/` (the raw reference), not under
`/var/lib/iza/images/ubuntu:latest/`: resolving `ubuntu:latest`
afterwards returns absent, so the two references do not share a storage
directory. -/
theorem C6_tag_normalization_counterexample :
    (pull_image [] "ubuntu" (.completed 200) (.ok [])).2 = 0
    ∧ get_image_rootfs (pull_image [] "ubuntu" (.completed 200) (.ok [])).1
        "ubuntu" = "/var/lib/iza/images/ubuntu/rootfs"
    ∧ get_image_rootfs (pull_image [] "ubuntu" (.completed 200) (.ok [])).1
        "ubuntu:latest" = "" := by
  refine ⟨by decide, by decide, by decide⟩

/-- C6 (amended): `pull_image` stores the extracted image under
`/var/lib/iza/images/<ref>/rootfs/` where `<ref>` is the reference
exactly as given (the `name:tag` split with default tag `latest` is used
only to choose the download URL), and after a successful pull, resolving
the same textual reference returns the non-absent rootfs path. -/
theorem C6_pull_stores_raw_ref (fs : List String) (ref : String) (s : Nat)
    (entries : List String)
    (hsupp : (download_url_for (parse_name_tag ref).1).isSome = true) :
    (pull_image fs ref (.completed s) (.ok entries)).2 = 0
    ∧ get_image_rootfs (pull_image fs ref (.completed s) (.ok entries)).1 ref
        = images_dir ++ "/" ++ ref ++ "/rootfs" := by
  rcases hpt : parse_name_tag ref with ⟨name, tag⟩
  rw [hpt] at hsupp
  rcases hurl : download_url_for name with _ | u
  · rw [hurl] at hsupp
    simp at hsupp
  · constructor
    · simp [pull_image, hpt, hurl, download_file, extract_image]
    · have hex : pathExists (pull_image fs ref (.completed s) (.ok entries)).1
          (images_dir ++ "/" ++ ref ++ "/rootfs") = true := by
        simp only [pull_image, hpt, hurl, download_file, extract_image]
        simp only [ne_eq, not_true_eq_false, if_false, if_neg]
        exact pathExists_foldl_createPath _ _ _ (pathExists_createPath _ _)
      simp [get_image_rootfs, hex]

lemma removeAllPaths_idem (fs : List String) (d : String) :
    removeAllPaths (removeAllPaths fs d) d = removeAllPaths fs d := by
  simp [removeAllPaths, List.filter_filter]

lemma pathExists_removeAllPaths_of_not_under (fs : List String) (d q : String)
    (h : underDir d q = false) :
    pathExists (removeAllPaths fs d) q = pathExists fs q := by
  induction fs with
  | nil => rfl
  | cons a fs ih =>
    cases ha : underDir d a with
    | true =>
      have hne : decide (a = q) = false := by
        apply decide_eq_false
        intro heq
        subst heq
        simp [ha] at h
      simp only [removeAllPaths] at ih ⊢
      simp [List.filter_cons, ha, pathExists, hne, ih]
    | false =>
      simp only [removeAllPaths] at ih ⊢
      simp [List.filter_cons, ha, pathExists, ih]

lemma pathExists_createPath_of_ne (fs : List String) (p q : String) (hne : p ≠ q) :
    pathExists (createPath fs p) q = pathExists fs q := by
  unfold createPath
  cases hp : pathExists fs p with
  | true => rfl
  | false => simp [pathExists, hne]

lemma pathExists_foldl_createPath_of_ne (l : List String) (fs : List String)
    (q : String) (h : ∀ p ∈ l, p ≠ q) :
    pathExists (l.foldl createPath fs) q = pathExists fs q := by
  induction l generalizing fs with
  | nil => rfl
  | cons a t ih =>
    have := ih (createPath fs a) (fun p hp => h p (List.mem_cons_of_mem a hp))
    rw [List.foldl_cons, this, pathExists_createPath_of_ne fs a q (h a (List.mem_cons_self a t))]

lemma ModUnder.pathExists_eq {d : String} {fs fs' : List String}
    (hm : ModUnder d fs fs') {q : String} (hq : underDir d q = false) :
    pathExists fs' q = pathExists fs q := by
  induction hm with
  | refl => rfl
  | remove _ ih => rw [pathExists_removeAllPaths_of_not_under _ _ _ hq, ih]
  | create p hp _ ih =>
    have hne : p ≠ q := by
      intro h
      subst h
      rw [hp] at hq
      exact Bool.true_eq_false.mp hq
    rw [pathExists_createPath_of_ne _ _ _ hne, ih]

lemma ModUnder.foldl {d : String} {fs fs' : List String} {l : List String}
    (hl : ∀ p ∈ l, underDir d p = true) (hm : ModUnder d fs fs') :
    ModUnder d fs (l.foldl createPath fs') := by
  induction l generalizing fs' with
  | nil => exact hm
  | cons a t ih =>
    rw [List.foldl_cons]
    exact ih (fun p hp => hl p (List.mem_cons_of_mem a hp))
      (hm.create a (hl a (List.mem_cons_self a t)))

lemma ModUnder.comp {d : String} {fs1 fs2 fs3 : List String}
    (h1 : ModUnder d fs1 fs2) (h2 : ModUnder d fs2 fs3) : ModUnder d fs1 fs3 := by
  induction h2 with
  | refl => exact h1
  | remove _ ih => exact ih.remove
  | create p hp _ ih => exact ih.create p hp

lemma isPrefixOf_append_cons (l : List Char) (c : Char) (t : List Char) :
    (l ++ [c]).isPrefixOf (l ++ c :: t) = true := by
  induction l with
  | nil => simp [List.isPrefixOf]
  | cons a l ih => simp [List.isPrefixOf, ih]

lemma underDir_self (d : String) : underDir d d = true := by
  simp [underDir]

lemma underDir_append (d e : String) (t : List Char) (he : e.data = '/' :: t) :
    underDir d (d ++ e) = true := by
  have h1 : (d ++ "/").data = d.data ++ ['/'] := by simp
  have h2 : (d ++ e).data = d.data ++ '/' :: t := by simp [he]
  unfold underDir
  rw [h1, h2, isPrefixOf_append_cons]
  simp

lemma cleanup_overlay_eq (st : SysState) (cid : String) :
    cleanup_overlay st cid =
      { fs := removeAllPaths st.fs (overlay_dir ++ "/" ++ cid),
        mounts :=
          if pathExists st.fs ((overlay_dir ++ "/" ++ cid) ++ "/merged") then
            st.mounts.filter
              (fun m => !(decide (m = (overlay_dir ++ "/" ++ cid) ++ "/merged")))
          else st.mounts } := by
  unfold cleanup_overlay
  cases h : pathExists st.fs ((overlay_dir ++ "/" ++ cid) ++ "/merged") <;> simp [h]

lemma cleanup_fs (st : SysState) (cid : String) :
    (cleanup_overlay st cid).fs = removeAllPaths st.fs (overlay_dir ++ "/" ++ cid) := by
  rw [cleanup_overlay_eq]

lemma cleanup_overlay_idem (st : SysState) (cid : String) :
    cleanup_overlay (cleanup_overlay st cid) cid = cleanup_overlay st cid := by
  rw [cleanup_overlay_eq st cid, cleanup_overlay_eq]
  have hnm : pathExists (removeAllPaths st.fs (overlay_dir ++ "/" ++ cid))
      ((overlay_dir ++ "/" ++ cid) ++ "/merged") = false :=
    pathExists_removeAllPaths _ _ _ (underDir_append _ _ _ rfl)
  simp [hnm, removeAllPaths_idem]

lemma fallback_fs_modUnder (st : SysState) (cid : String) (c : CopyOutcome)
    (hc : ∀ p ∈ c.copied, underDir (overlay_dir ++ "/" ++ cid) p = true) :
    ModUnder (overlay_dir ++ "/" ++ cid) st.fs
      (setup_bind_mount_fallback st cid c).1.fs := by
  cases c with
  | ok copied =>
    simp only [setup_bind_mount_fallback]
    exact ModUnder.foldl (by simpa [CopyOutcome.copied] using hc)
      ((((ModUnder.refl st.fs).remove).create _ (underDir_self _)).create _
        (underDir_append _ _ _ rfl))
  | fail copied =>
    simp only [setup_bind_mount_fallback]
    exact ModUnder.foldl (by simpa [CopyOutcome.copied] using hc)
      (((ModUnder.refl st.fs).remove).create _ (underDir_self _))

lemma setup_fs_modUnder (st : SysState) (img cid : String) (osup mk mok : Bool)
    (c : CopyOutcome)
    (hc : ∀ p ∈ c.copied, underDir (overlay_dir ++ "/" ++ cid) p = true) :
    ModUnder (overlay_dir ++ "/" ++ cid) st.fs
      (setup_overlay st img cid osup mk mok c).1.fs := by
  have hstart : ModUnder (overlay_dir ++ "/" ++ cid) st.fs (cleanup_overlay st cid).fs := by
    rw [cleanup_fs]
    exact (ModUnder.refl _).remove
  cases osup with
  | false =>
    simp only [setup_overlay, Bool.false_eq_true, if_false]
    exact fallback_fs_modUnder st cid c hc
  | true =>
    simp only [setup_overlay, if_true]
    cases mk with
    | false =>
      simp only [Bool.false_eq_true, if_false]
      exact hstart.comp (fallback_fs_modUnder (cleanup_overlay st cid) cid c hc)
    | true =>
      simp only [if_true]
      have hfs2 : ModUnder (overlay_dir ++ "/" ++ cid) st.fs
          (createPath (createPath (createPath (cleanup_overlay st cid).fs
              ((overlay_dir ++ "/" ++ cid) ++ "/upper"))
              ((overlay_dir ++ "/" ++ cid) ++ "/work"))
              ((overlay_dir ++ "/" ++ cid) ++ "/merged")) :=
        ((hstart.create _ (underDir_append _ _ _ rfl)).create _
          (underDir_append _ _ _ rfl)).create _ (underDir_append _ _ _ rfl)
      split
      · split
        · exact hfs2
        · exact hfs2.comp (fallback_fs_modUnder
            { cleanup_overlay st cid with
              fs := createPath (createPath (createPath (cleanup_overlay st cid).fs
                ((overlay_dir ++ "/" ++ cid) ++ "/upper"))
                ((overlay_dir ++ "/" ++ cid) ++ "/work"))
                ((overlay_dir ++ "/" ++ cid) ++ "/merged") } cid c hc)
      · exact hfs2.comp (fallback_fs_modUnder
            { cleanup_overlay st cid with
              fs := createPath (createPath (createPath (cleanup_overlay st cid).fs
                ((overlay_dir ++ "/" ++ cid) ++ "/upper"))
                ((overlay_dir ++ "/" ++ cid) ++ "/work"))
                ((overlay_dir ++ "/" ++ cid) ++ "/merged") } cid c hc)

/-- C9: rootfs teardown after an assembly (overlay or deep-copy
fallback, successful or partially failed) removes every path of the
per-container directory under the overlay root; it is idempotent (a
second call is a no-op); and it leaves every path outside the
per-container directory exactly as it was before the assembly, so
`assemble → teardown → assemble → teardown` leaves no residue in the
overlay root. -/
theorem C9_teardown_safe_idempotent (st : SysState) (img cid : String)
    (osup mk mok : Bool) (c : CopyOutcome)
    (hc : ∀ p ∈ c.copied, underDir (overlay_dir ++ "/" ++ cid) p = true) :
    (∀ p, underDir (overlay_dir ++ "/" ++ cid) p = true →
        pathExists (cleanup_overlay (setup_overlay st img cid osup mk mok c).1 cid).fs
          p = false)
    ∧ cleanup_overlay (cleanup_overlay (setup_overlay st img cid osup mk mok c).1 cid) cid
        = cleanup_overlay (setup_overlay st img cid osup mk mok c).1 cid
    ∧ (∀ q, underDir (overlay_dir ++ "/" ++ cid) q = false →
        pathExists (cleanup_overlay (setup_overlay st img cid osup mk mok c).1 cid).fs q
          = pathExists st.fs q) := by
  refine ⟨?_, cleanup_overlay_idem _ _, ?_⟩
  · intro p hp
    rw [cleanup_fs]
    exact pathExists_removeAllPaths _ _ _ hp
  · intro q hq
    rw [cleanup_fs]
    exact ((setup_fs_modUnder st img cid osup mk mok c hc).remove).pathExists_eq hq

/-- Witness for C9: empty initial state, overlay path available, no
copied files. -/
theorem C9_teardown_safe_idempotent_witness :
    (∀ p ∈ (CopyOutcome.ok []).copied,
        underDir (overlay_dir ++ "/" ++ "container-1-2") p = true)
    ∧ pathExists
        (cleanup_overlay
          (setup_overlay ⟨[], []⟩ "/var/lib/iza/images/alpine:3.18/rootfs"
            "container-1-2" true true true (.ok [])).1 "container-1-2").fs
        (overlay_dir ++ "/" ++ "container-1-2") = false
    ∧ cleanup_overlay
        (cleanup_overlay
          (setup_overlay ⟨[], []⟩ "/var/lib/iza/images/alpine:3.18/rootfs"
            "container-1-2" true true true (.ok [])).1 "container-1-2") "container-1-2"
      = cleanup_overlay
          (setup_overlay ⟨[], []⟩ "/var/lib/iza/images/alpine:3.18/rootfs"
            "container-1-2" true true true (.ok [])).1 "container-1-2" :=
  ⟨by simp [CopyOutcome.copied],
   (C9_teardown_safe_idempotent ⟨[], []⟩ "/var/lib/iza/images/alpine:3.18/rootfs"
      "container-1-2" true true true (.ok []) (by simp [CopyOutcome.copied])).1
      (overlay_dir ++ "/" ++ "container-1-2") (underDir_self _),
   (C9_teardown_safe_idempotent ⟨[], []⟩ "/var/lib/iza/images/alpine:3.18/rootfs"
      "container-1-2" true true true (.ok []) (by simp [CopyOutcome.copied])).2.1⟩

theorem C6_pull_stores_raw_ref_witness :
    (download_url_for (parse_name_tag "ubuntu:latest").1).isSome = true
    ∧ (pull_image [] "ubuntu:latest" (.completed 200) (.ok [])).2 = 0
    ∧ get_image_rootfs (pull_image [] "ubuntu:latest" (.completed 200) (.ok [])).1
        "ubuntu:latest" = images_dir ++ "/" ++ "ubuntu:latest" ++ "/rootfs" :=
  ⟨by decide,
   (C6_pull_stores_raw_ref [] "ubuntu:latest" 200 [] (by decide)).1,
   (C6_pull_stores_raw_ref [] "ubuntu:latest" 200 [] (by decide)).2⟩

lemma isDigit_ne_space {c : Char} (h : c.isDigit = true) : c ≠ ' ' := by
  intro heq
  subst heq
  exact absurd h (by decide)

lemma isDigit_ne_minus {c : Char} (h : c.isDigit = true) : c ≠ '-' := by
  intro heq
  subst heq
  exact absurd h (by decide)

lemma dropWhile_space_of_digits (ds : List Char) (h : ds.all Char.isDigit = true) :
    ds.dropWhile (fun c => decide (c = ' ')) = ds := by
  cases ds with
  | nil => rfl
  | cons c t =>
    have hc : c.isDigit = true := by
      simp [List.all_cons] at h
      exact h.1
    have hne : (decide (c = ' ')) = false := decide_eq_false (isDigit_ne_space hc)
    simp [List.dropWhile_cons, hne]

lemma takeWhile_digits_of_digits (ds : List Char) (h : ds.all Char.isDigit = true) :
    ds.takeWhile Char.isDigit = ds := by
  induction ds with
  | nil => rfl
  | cons c t ih =>
    simp [List.all_cons] at h
    simp [List.takeWhile_cons, h.1, ih (List.all_eq_true.mpr h.2)]

lemma stollList_digits (ds : List Char) (h1 : ds ≠ []) (h2 : ds.all Char.isDigit = true)
    (h3 : (digitsToNat ds : Int) ≤ 9223372036854775807) :
    stollList ds = some ((digitsToNat ds : Int)) := by
  obtain ⟨c, t, rfl⟩ := List.exists_cons_of_ne_nil h1
  have hc : c.isDigit = true := by
    have := List.all_eq_true.mp h2 c (List.mem_cons_self c t)
    exact this
  have hcond : ¬(c = '-' ∨ c = '+') := by
    rintro (rfl | rfl) <;> exact absurd hc (by decide)
  have hneg : (decide (c = '-')) = false := decide_eq_false (isDigit_ne_minus hc)
  have hbound : ¬((digitsToNat (c :: t) : Int) < -9223372036854775808
      ∨ 9223372036854775807 < (digitsToNat (c :: t) : Int)) := by
    rintro (hlt | hgt)
    · omega
    · omega
  simp only [stollList, dropWhile_space_of_digits _ h2, List.headD_cons,
    takeWhile_digits_of_digits _ h2, hneg, if_neg hcond, Bool.false_eq_true, if_false,
    if_neg (List.cons_ne_nil c t), if_neg hbound]

/-- C4: `parse_memory_limit` is total on the grammar
`^[0-9]+[bkmgBKMG]?$` and computes digits × 1024⁰/¹/²/³ according to the
case-insensitive suffix, for every grammar string whose digit value fits
in `long long` (beyond that `std::stoll` throws `out_of_range`, caught
and mapped to -1); `"100m"` is 104857600, `"1g"` is 1073741824,
`"1024"` is 1024 bytes; and `set_memory_limit` rejects `"0"` as
invalid. -/
theorem C4_parse_memory_limit :
    (∀ s, memGrammarB s = true →
      (digitsToNat (memDigits s) : Int) ≤ 9223372036854775807 →
      parse_memory_limit s = (digitsToNat (memDigits s) : Int) * memScale s)
    ∧ parse_memory_limit "100m" = 104857600
    ∧ parse_memory_limit "1g" = 1073741824
    ∧ parse_memory_limit "1024" = 1024
    ∧ (∀ fileOk, set_memory_limit true fileOk "0" = (-1, none)) := by
  refine ⟨?_, by decide, by decide, by decide, ?_⟩
  · intro s hg hle
    cases hlast : s.data.getLast? with
    | none =>
      unfold memGrammarB at hg
      rw [hlast] at hg
      simp at hg
    | some lastc =>
      unfold memGrammarB at hg
      unfold parse_memory_limit
      unfold memDigits at hle ⊢
      unfold memScale
      rw [hlast] at hg hle ⊢
      cases hdig : lastc.isDigit with
      | true =>
        simp only [hdig, if_true] at hg hle ⊢
        have hne : s.data ≠ [] := by
          intro h0
          rw [h0] at hlast
          simp at hlast
        rw [stollList_digits _ hne hg hle]
        simp
      | false =>
        simp only [hdig, Bool.false_eq_true, if_false] at hg hle ⊢
        simp only [Bool.and_eq_true, Bool.or_eq_true, decide_eq_true_eq] at hg
        obtain ⟨⟨hne', hall⟩, hsuf⟩ := hg
        have hne2 : s.data.dropLast ≠ [] := by
          intro h0
          rw [h0] at hne'
          simp at hne'
        rw [stollList_digits _ hne2 hall hle]
        have hnb : lastc.toLower ≠ 'b' → lastc.toLower ≠ 'k' → lastc.toLower ≠ 'm' →
            lastc.toLower = 'g' := by
          intro a b c
          rcases hsuf with ((h | h) | h) | h
          · exact absurd h a
          · exact absurd h b
          · exact absurd h c
          · exact h
        by_cases hb : lastc.toLower = 'b'
        · simp [hb]
        · by_cases hk : lastc.toLower = 'k'
          · simp [hk]
          · by_cases hm : lastc.toLower = 'm'
            · simp [hm]
              ring
            · have hgc := hnb hb hk hm
              simp [hgc]
              ring
  · intro fileOk
    cases fileOk <;> decide

/-- Witness for C4 at the grammar string `100m`. -/
theorem C4_parse_memory_limit_witness :
    memGrammarB "100m" = true
    ∧ (digitsToNat (memDigits "100m") : Int) ≤ 9223372036854775807
    ∧ parse_memory_limit "100m" = (digitsToNat (memDigits "100m") : Int) * memScale "100m" :=
  ⟨by decide, by decide, C4_parse_memory_limit.1 "100m" (by decide) (by decide)⟩

/-- C5 (amended): for every parsed positive core count `q`, the pair
written to `cpu.max` is `((int)(q * 100000), 100000)` — truncation
toward zero of the product, not rounding to nearest — and a zero or
negative value is a fatal error. -/
theorem C5_cpu_quota_truncation (limit : String) (q : ℚ) (hq : stod limit = some q) :
    (0 < q → set_cpu_limit true true limit
      = some (0, some (ratTrunc (q * (100000 : ℚ)), 100000)))
    ∧ (q ≤ 0 → set_cpu_limit true true limit = some (-1, none)) := by
  constructor
  · intro hpos
    have hnle : ¬ q ≤ 0 := not_le.mpr hpos
    simp [set_cpu_limit, hq, hnle]
  · intro hle
    simp [set_cpu_limit, hq, hle]

lemma ratFloor_eq_of_bounds (q : ℚ) (z : Int) (h1 : (z : ℚ) ≤ q)
    (h2 : q < (z : ℚ) + 1) : Rat.floor q = z := by
  have ha : z ≤ Rat.floor q := Rat.le_floor.mpr h1
  have hb : ¬ (z + 1 ≤ Rat.floor q) := by
    rw [Rat.le_floor]
    push_cast
    intro hc
    linarith
  omega

lemma stod_eval_half : stod "0.5" = some ((1 : ℚ) / 2) := by
  show stodList ['0', '.', '5'] = some ((1 : ℚ) / 2)
  simp [stodList, digitsToNat, List.dropWhile_cons, List.takeWhile_cons]
  norm_num

lemma stod_eval_1000006 : stod "1.000006" = some ((1000006 : ℚ) / 1000000) := by
  show stodList ['1', '.', '0', '0', '0', '0', '0', '6'] = some ((1000006 : ℚ) / 1000000)
  simp [stodList, digitsToNat, List.dropWhile_cons, List.takeWhile_cons]
  norm_num

/-- Witness for C5 at `--cpus 0.5`: the quota written is 50000 with
period 100000. -/
theorem C5_cpu_quota_truncation_witness :
    stod "0.5" = some ((1 : ℚ) / 2)
    ∧ (0 : ℚ) < (1 : ℚ) / 2
    ∧ set_cpu_limit true true "0.5"
        = some (0, some (ratTrunc ((1 : ℚ) / 2 * (100000 : ℚ)), 100000))
    ∧ ratTrunc ((1 : ℚ) / 2 * (100000 : ℚ)) = 50000 :=
  ⟨stod_eval_half, by norm_num,
   (C5_cpu_quota_truncation "0.5" ((1 : ℚ) / 2) stod_eval_half).1 (by norm_num),
   by
    unfold ratTrunc
    rw [if_pos (by norm_num)]
    exact ratFloor_eq_of_bounds _ 50000 (by norm_num) (by norm_num)⟩

/-- C5 counterexample: for `--cpus 1.000006` the code writes quota
100000 (the truncation of 100000.6), while `round(cores × 100000)` is
100001: the written quota is not `round(cores × 100000)`. -/
theorem C5_round_counterexample :
    set_cpu_limit true true "1.000006" = some (0, some (100000, 100000))
    ∧ stod "1.000006" = some ((1000006 : ℚ) / 1000000)
    ∧ specRound ((1000006 : ℚ) / 1000000 * (100000 : ℚ)) = 100001
    ∧ (100000 : Int) ≠ 100001 := by
  refine ⟨?_, stod_eval_1000006, ?_, by decide⟩
  · have hq : ¬ ((1000006 : ℚ) / 1000000 ≤ 0) := by norm_num
    simp [set_cpu_limit, stod_eval_1000006, hq, ratTrunc]
    exact ratFloor_eq_of_bounds _ 100000 (by norm_num) (by norm_num)
  · unfold specRound
    exact ratFloor_eq_of_bounds _ 100001 (by norm_num) (by norm_num)

/-- C8: in `iza run`, the first positional argument becomes the image
reference exactly when it contains a colon or names a locally
resolvable image (a directory with `rootfs/` under
`/var/lib/iza/images`), and otherwise becomes the first token of the
command; an image with no command gets the default command `/bin/bash`;
and all four flag forms `--memory V`, `--memory=V`, `--cpus V`,
`--cpus=V` set the corresponding limit. -/
theorem C8_run_arg_parsing :
    (∀ fs t rest, t ≠ "" → NotFlagTok t →
      ((charsContains t.data ':' || is_available_image fs t) = true →
        (parse_run_command fs (t :: rest)).image_name = t
        ∧ (parse_run_command fs (t :: rest)).command
            = (if rest.isEmpty then ["/bin/bash"] else rest)
        ∧ (parse_run_command fs (t :: rest)).valid = true)
      ∧ ((charsContains t.data ':' || is_available_image fs t) = false →
        (parse_run_command fs (t :: rest)).image_name = ""
        ∧ (parse_run_command fs (t :: rest)).command = t :: rest
        ∧ (parse_run_command fs (t :: rest)).valid = true))
    ∧ (∀ fs v t rest, NotFlagTok t →
        (parse_run_command fs ("--memory" :: v :: t :: rest)).memory_limit = v)
    ∧ (∀ fs v t rest, NotFlagTok t →
        (parse_run_command fs ("--cpus" :: v :: t :: rest)).cpu_limit = v)
    ∧ (∀ fs a t rest, NotFlagTok t →
        a ≠ "--memory" → a ≠ "--cpus" → strStartsWith a "--memory=" = true →
        (parse_run_command fs (a :: t :: rest)).memory_limit = strDrop a 9)
    ∧ (∀ fs a t rest, NotFlagTok t →
        a ≠ "--memory" → a ≠ "--cpus" → strStartsWith a "--memory=" = false →
        strStartsWith a "--cpus=" = true →
        (parse_run_command fs (a :: t :: rest)).cpu_limit = strDrop a 7) := by
  have hloop : ∀ fs t rest (acc : RunArgs), NotFlagTok t →
      parse_run_loop fs (t :: rest) acc = parse_positional fs t rest acc := by
    intro fs t rest acc ht
    obtain ⟨h1, h2, h3, h4⟩ := ht
    cases rest with
    | nil => simp [parse_run_loop, h1, h2, h3, h4]
    | cons r rs => simp [parse_run_loop, h1, h2, h3, h4]
  refine ⟨?_, ?_, ?_, ?_, ?_⟩
  · intro fs t rest ht0 ht
    constructor
    · intro himg
      rw [show parse_run_command fs (t :: rest)
            = parse_run_command fs (t :: rest) from rfl]
      simp only [parse_run_command, List.isEmpty_cons, Bool.false_eq_true, if_false,
        hloop fs t rest {} ht, parse_positional, himg, if_true]
      cases rest with
      | nil => simp [ht0]
      | cons r rs => simp
    · intro himg
      simp only [parse_run_command, List.isEmpty_cons, Bool.false_eq_true, if_false,
        hloop fs t rest {} ht, parse_positional, himg, if_true]
      simp
  · intro fs v t rest ht
    simp only [parse_run_command, List.isEmpty_cons, Bool.false_eq_true, if_false]
    simp only [parse_run_loop, if_pos rfl]
    rw [hloop fs t rest _ ht]
    unfold parse_positional
    cases himg : (charsContains t.data ':' || is_available_image fs t) with
    | true =>
      simp only [if_true]
      cases rest with
        | nil =>
          simp [parse_run_command]
          split <;> rfl
        | cons r rs => simp [parse_run_command]
    | false =>
      simp only [Bool.false_eq_true, if_false]
      simp [parse_run_command]
  · intro fs v t rest ht
    simp only [parse_run_command, List.isEmpty_cons, Bool.false_eq_true, if_false]
    have : ("--cpus" : String) ≠ "--memory" := by decide
    simp only [parse_run_loop, if_neg this, if_pos rfl]
    rw [hloop fs t rest _ ht]
    unfold parse_positional
    cases himg : (charsContains t.data ':' || is_available_image fs t) with
    | true =>
      simp only [if_true]
      cases rest with
        | nil =>
          simp [parse_run_command]
          split <;> rfl
        | cons r rs => simp [parse_run_command]
    | false =>
      simp only [Bool.false_eq_true, if_false]
      simp [parse_run_command]
  · intro fs a t rest ht ha1 ha2 ha3
    simp only [parse_run_command, List.isEmpty_cons, Bool.false_eq_true, if_false]
    simp only [parse_run_loop, if_neg ha1, if_neg ha2, ha3, if_true]
    rw [hloop fs t rest _ ht]
    unfold parse_positional
    cases himg : (charsContains t.data ':' || is_available_image fs t) with
    | true =>
      simp only [if_true]
      cases rest with
        | nil =>
          simp [parse_run_command]
          split <;> rfl
        | cons r rs => simp [parse_run_command]
    | false =>
      simp only [Bool.false_eq_true, if_false]
      simp [parse_run_command]
  · intro fs a t rest ht ha1 ha2 ha3 ha4
    simp only [parse_run_command, List.isEmpty_cons, Bool.false_eq_true, if_false]
    simp only [parse_run_loop, if_neg ha1, if_neg ha2, ha3, Bool.false_eq_true, if_false,
      ha4, if_true]
    rw [hloop fs t rest _ ht]
    unfold parse_positional
    cases himg : (charsContains t.data ':' || is_available_image fs t) with
    | true =>
      simp only [if_true]
      cases rest with
        | nil =>
          simp [parse_run_command]
          split <;> rfl
        | cons r rs => simp [parse_run_command]
    | false =>
      simp only [Bool.false_eq_true, if_false]
      simp [parse_run_command]

lemma parse_run_loop_cons (fs : List String) (arg : String) (rest : List String)
    (acc : RunArgs) :
    parse_run_loop fs (arg :: rest) acc =
      if arg = "--memory" then
        (match rest with
         | v :: rest2 => parse_run_loop fs rest2 { acc with memory_limit := v }
         | [] => parse_positional fs arg [] acc)
      else if arg = "--cpus" then
        (match rest with
         | v :: rest2 => parse_run_loop fs rest2 { acc with cpu_limit := v }
         | [] => parse_positional fs arg [] acc)
      else if strStartsWith arg "--memory=" then
        parse_run_loop fs rest { acc with memory_limit := strDrop arg 9 }
      else if strStartsWith arg "--cpus=" then
        parse_run_loop fs rest { acc with cpu_limit := strDrop arg 7 }
      else parse_positional fs arg rest acc := by
  conv_lhs => unfold parse_run_loop

lemma flagLimits_cons (arg : String) (rest : List String) (p : String × String) :
    flagLimits (arg :: rest) p =
      if arg = "--memory" then
        (match rest with
         | v :: rest2 => flagLimits rest2 (v, p.2)
         | [] => p)
      else if arg = "--cpus" then
        (match rest with
         | v :: rest2 => flagLimits rest2 (p.1, v)
         | [] => p)
      else if strStartsWith arg "--memory=" then flagLimits rest (strDrop arg 9, p.2)
      else if strStartsWith arg "--cpus=" then flagLimits rest (p.1, strDrop arg 7)
      else p := by
  conv_lhs => unfold flagLimits

lemma flagLimits_memEq (a : String) (rest : List String) (p : String × String)
    (h1 : a ≠ "--memory") (h2 : a ≠ "--cpus")
    (h3 : strStartsWith a "--memory=" = true) :
    flagLimits (a :: rest) p = flagLimits rest (strDrop a 9, p.2) := by
  rw [flagLimits_cons, if_neg h1, if_neg h2, h3, if_pos rfl]

lemma flagLimits_cpuEq (a : String) (rest : List String) (p : String × String)
    (h1 : a ≠ "--memory") (h2 : a ≠ "--cpus")
    (h3 : strStartsWith a "--memory=" = false)
    (h4 : strStartsWith a "--cpus=" = true) :
    flagLimits (a :: rest) p = flagLimits rest (p.1, strDrop a 7) := by
  rw [flagLimits_cons, if_neg h1, if_neg h2, h3]
  rw [if_neg (by simp), h4, if_pos rfl]

lemma parse_run_loop_flags (fs : List String) {pre : List String} (h : FlagsOnly pre)
    (l : List String) (acc : RunArgs) :
    parse_run_loop fs (pre ++ l) acc
      = parse_run_loop fs l
          { acc with
            memory_limit := (flagLimits pre (acc.memory_limit, acc.cpu_limit)).1,
            cpu_limit := (flagLimits pre (acc.memory_limit, acc.cpu_limit)).2 } := by
  induction h generalizing acc with
  | nil => simp [flagLimits]
  | memPair v hl ih =>
    simp only [List.cons_append, parse_run_loop, eq_self_iff_true, if_true,
      List.append_eq]
    rw [ih]
    simp [flagLimits]
  | cpuPair v hl ih =>
    have hne : ("--cpus" : String) ≠ "--memory" := by decide
    simp only [List.cons_append, parse_run_loop, if_neg hne, eq_self_iff_true, if_true,
      List.append_eq]
    rw [ih]
    simp [flagLimits, hne]
  | memEq a h1 h2 h3 hl ih =>
    rw [List.cons_append, parse_run_loop_cons, if_neg h1, if_neg h2, h3, if_pos rfl]
    rw [ih, flagLimits_memEq a _ _ h1 h2 h3]
  | cpuEq a h1 h2 h3 h4 hl ih =>
    rw [List.cons_append, parse_run_loop_cons, if_neg h1, if_neg h2, h3]
    rw [if_neg (by simp), h4, if_pos rfl]
    rw [ih, flagLimits_cpuEq a _ _ h1 h2 h3 h4]

/-- C10: option flags are recognized only before the first positional
argument: for an argument list `pre ++ t :: rest` whose prefix `pre` is
consumed as flags and whose `t` is positional, the limits are exactly
those set by `pre`, and everything after `t` (including any `--memory`
or `--cpus` tokens in `rest`) is passed through unchanged as the
container command, setting no limit. -/
theorem C10_flags_after_positional (fs : List String) (pre : List String)
    (t : String) (rest : List String) (hpre : FlagsOnly pre) (ht0 : t ≠ "")
    (ht : NotFlagTok t) :
    ((parse_run_command fs (pre ++ t :: rest)).memory_limit,
      (parse_run_command fs (pre ++ t :: rest)).cpu_limit)
      = flagLimits pre ("", "")
    ∧ (parse_run_command fs (pre ++ t :: rest)).command
        = (if (charsContains t.data ':' || is_available_image fs t) = true
           then (if rest.isEmpty then ["/bin/bash"] else rest)
           else t :: rest) := by
  have hloop : ∀ (acc : RunArgs),
      parse_run_loop fs (t :: rest) acc = parse_positional fs t rest acc := by
    intro acc
    obtain ⟨h1, h2, h3, h4⟩ := ht
    cases rest with
    | nil => simp [parse_run_loop, h1, h2, h3, h4]
    | cons r rs => simp [parse_run_loop, h1, h2, h3, h4]
  have hempty : (pre ++ t :: rest).isEmpty = false := by
    cases pre <;> simp
  simp only [parse_run_command, hempty, Bool.false_eq_true, if_false,
    parse_run_loop_flags fs hpre (t :: rest) {}, hloop, parse_positional]
  cases himg : (charsContains t.data ':' || is_available_image fs t) with
  | true =>
    simp only [if_true]
    cases rest with
    | nil => simp [ht0]
    | cons r rs => simp
  | false =>
    simp only [Bool.false_eq_true, if_false]
    simp

/-- Witness for C10. -/
theorem C10_flags_after_positional_witness :
    ((parse_run_command [] (["--memory", "1g"] ++ "echo" :: ["--memory", "100m"])).memory_limit,
      (parse_run_command [] (["--memory", "1g"] ++ "echo" :: ["--memory", "100m"])).cpu_limit)
      = flagLimits ["--memory", "1g"] ("", "")
    ∧ (parse_run_command [] (["--memory", "1g"] ++ "echo" :: ["--memory", "100m"])).command
        = (if (charsContains "echo".data ':' || is_available_image [] "echo") = true
           then (if (["--memory", "100m"] : List String).isEmpty then ["/bin/bash"]
                 else ["--memory", "100m"])
           else "echo" :: ["--memory", "100m"]) :=
  C10_flags_after_positional [] ["--memory", "1g"] "echo" ["--memory", "100m"]
    (FlagsOnly.memPair "1g" FlagsOnly.nil) (by decide)
    ⟨by decide, by decide, by decide, by decide⟩

/-- Witness for C8: `iza run alpine:3.18` (image with default command)
and each of the four flag forms. -/
theorem C8_run_arg_parsing_witness :
    ((parse_run_command [] ["alpine:3.18"]).image_name = "alpine:3.18"
      ∧ (parse_run_command [] ["alpine:3.18"]).command
          = (if ([] : List String).isEmpty then ["/bin/bash"] else [])
      ∧ (parse_run_command [] ["alpine:3.18"]).valid = true)
    ∧ (parse_run_command [] ["--memory", "100m", "echo"]).memory_limit = "100m"
    ∧ (parse_run_command [] ["--cpus", "0.5", "echo"]).cpu_limit = "0.5"
    ∧ (parse_run_command [] ["--memory=100m", "echo"]).memory_limit
        = strDrop "--memory=100m" 9
    ∧ strDrop "--memory=100m" 9 = "100m"
    ∧ (parse_run_command [] ["--cpus=0.5", "echo"]).cpu_limit = strDrop "--cpus=0.5" 7
    ∧ strDrop "--cpus=0.5" 7 = "0.5" :=
  ⟨(C8_run_arg_parsing.1 [] "alpine:3.18" [] (by decide)
      ⟨by decide, by decide, by decide, by decide⟩).1 (by decide),
   C8_run_arg_parsing.2.1 [] "100m" "echo" []
      ⟨by decide, by decide, by decide, by decide⟩,
   C8_run_arg_parsing.2.2.1 [] "0.5" "echo" []
      ⟨by decide, by decide, by decide, by decide⟩,
   C8_run_arg_parsing.2.2.2.1 [] "--memory=100m" "echo" []
      ⟨by decide, by decide, by decide, by decide⟩ (by decide) (by decide) (by decide),
   by decide,
   C8_run_arg_parsing.2.2.2.2 [] "--cpus=0.5" "echo" []
      ⟨by decide, by decide, by decide, by decide⟩ (by decide) (by decide) (by decide)
      (by decide),
   by decide⟩
